import Mathlib

/-!
Shallow embedding of the muesli/streamdeck driver core (streamdeck.go) and
proofs about it.  Machine bytes (Go `uint8`) are modelled as `Nat` with an
explicit `% 256` wherever the Go arithmetic can wrap; Go `int` values that
are stored into bytes via `byte(·)` are likewise reduced `% 256`.  Byte
strings are `List Nat`.  Stateful methods on `Device` become pure functions
from a device record to an updated record together with the transport
payload they would write (`Option (List Nat)`, `none` meaning no write).
-/

namespace Streamdeck

/-- Key holds the current status of a key on the device (struct `Key`). -/
structure Key where
  index : Nat
  pressed : Bool
  holdable : Bool
deriving DecidableEq, Repr

/-- The fields of the Go `Device` struct that the verified operations use.
Byte-sized Go fields (`uint8`) are `Nat`s that the device tables keep below
256. -/
structure Device where
  columns : Nat
  rows : Nat
  keys : Nat
  pixels : Nat
  screenWidth : Nat
  screenHeight : Nat
  screenSegments : Nat
  knobs : Nat
  featureReportSize : Nat
  keyStateOffset : Nat
  imagePageSize : Nat
  imagePageHeaderSize : Nat
  setBrightnessCommand : List Nat
  keyState : List Nat
  asleep : Bool
  brightness : Nat
  preSleepBrightness : Nat
deriving DecidableEq, Repr

/-- `c_REV1_BRIGHTNESS` command prefix. -/
def c_REV1_BRIGHTNESS : List Nat := [0x05, 0x55, 0xaa, 0xd1, 0x01]

/-- `c_REV2_BRIGHTNESS` command prefix. -/
def c_REV2_BRIGHTNESS : List Nat := [0x03, 0x08]

/-- The profile of the original Stream Deck (PID 0x0060) from `Devices()`. -/
def streamdeckV1 : Device where
  columns := 5
  rows := 3
  keys := 15
  pixels := 72
  screenWidth := 0
  screenHeight := 0
  screenSegments := 0
  knobs := 0
  featureReportSize := 17
  keyStateOffset := 1
  imagePageSize := 7819
  imagePageHeaderSize := 16
  setBrightnessCommand := c_REV1_BRIGHTNESS
  keyState := List.replicate 15 0
  asleep := false
  brightness := 0
  preSleepBrightness := 0

/-- The profile of the Stream Deck Mini (PID 0x0063) from `Devices()`. -/
def miniDevice : Device where
  columns := 3
  rows := 2
  keys := 6
  pixels := 80
  screenWidth := 0
  screenHeight := 0
  screenSegments := 0
  knobs := 0
  featureReportSize := 17
  keyStateOffset := 1
  imagePageSize := 1024
  imagePageHeaderSize := 16
  setBrightnessCommand := c_REV1_BRIGHTNESS
  keyState := List.replicate 6 0
  asleep := false
  brightness := 0
  preSleepBrightness := 0

/-- The profile of the Stream Deck Plus (PID 0x0084) from `Devices()`. -/
def plusDevice : Device where
  columns := 4
  rows := 2
  keys := 30
  pixels := 120
  screenWidth := 800
  screenHeight := 100
  screenSegments := 4
  knobs := 4
  featureReportSize := 32
  keyStateOffset := 4
  imagePageSize := 1024
  imagePageHeaderSize := 8
  setBrightnessCommand := c_REV2_BRIGHTNESS
  keyState := List.replicate 30 0
  asleep := false
  brightness := 0
  preSleepBrightness := 0

/-- `Device.sendFeatureReport`: the payload is copied into a fresh buffer of
exactly `featureReportSize` bytes (zero padded, truncated if longer).  We
return the buffer that is handed to the transport. -/
def sendFeatureReport (d : Device) (payload : List Nat) : List Nat :=
  (payload ++ List.replicate d.featureReportSize 0).take d.featureReportSize

/-- `Device.SetBrightness`: clamps the percentage to 100, caches it in
`brightness`; while asleep with a positive percentage it only stores the
restore target and performs no write, otherwise it sends
`setBrightnessCommand ++ [percent]` as a feature report. -/
def setBrightness (d : Device) (percent0 : Nat) : Device × Option (List Nat) :=
  let percent := if percent0 > 100 then 100 else percent0
  let d1 : Device := { d with brightness := percent }
  if d1.asleep ∧ percent > 0 then
    ({ d1 with preSleepBrightness := percent }, none)
  else
    (d1, some (sendFeatureReport d1 (d1.setBrightnessCommand ++ [percent])))

/-- `Device.ScreenSegmentWidth`: 0 when there are no segments, otherwise
`ScreenWidth / ScreenSegments` (unsigned integer division). -/
def screenSegmentWidth (device : Device) : Nat :=
  if device.screenSegments = 0 then 0
  else device.screenWidth / device.screenSegments

/-- `Device.ScreenSegmentHeight`: 0 when there are no segments, otherwise
`ScreenHeight`. -/
def screenSegmentHeight (device : Device) : Nat :=
  if device.screenSegments = 0 then 0
  else device.screenHeight

/-- `translateRightToLeft` with Go `uint8` arithmetic: every addition and
subtraction is taken modulo 256 exactly as the machine would. -/
def translateRightToLeft (index columns : Nat) : Nat :=
  let keyCol := index % columns
  ((index - keyCol) + (columns - 1) + 256 - keyCol) % 256

/-- `identity` key translation: returns the given key index as it is. -/
def identity (index _columns : Nat) : Nat :=
  index

/-- The sequence of key indices `Device.Clear` passes to `SetImage`: the Go
loop is `for i := uint8(0); i <= d.Columns*d.Rows; i++`, so it visits
`0, 1, …, columns*rows` inclusive. -/
def clearTargets (d : Device) : List Nat :=
  List.range (d.columns * d.rows + 1)

/-- `rev1ImagePageHeader`: 16 bytes, `02 01 (page+1) 00 last (key+1)` then
ten zero bytes; `byte(·)` conversions reduce modulo 256. -/
def rev1ImagePageHeader (pageIndex keyIndex _payloadLength : Nat)
    (lastPage : Bool) : List Nat :=
  let lastPageByte := if lastPage then 1 else 0
  [0x02, 0x01, (pageIndex + 1) % 256, 0x00, lastPageByte, (keyIndex + 1) % 256,
   0x00, 0x00, 0x00, 0x00, 0x00, 0x00, 0x00, 0x00, 0x00, 0x00]

/-- `miniImagePageHeader`: 16 bytes, `02 01 page 00 last (key+1)` then ten
zero bytes; the page byte is the zero-based page index itself. -/
def miniImagePageHeader (pageIndex keyIndex _payloadLength : Nat)
    (lastPage : Bool) : List Nat :=
  let lastPageByte := if lastPage then 1 else 0
  [0x02, 0x01, pageIndex % 256, 0x00, lastPageByte, (keyIndex + 1) % 256,
   0x00, 0x00, 0x00, 0x00, 0x00, 0x00, 0x00, 0x00, 0x00, 0x00]

/-- `imageData`: raw image bytes viewed through pages of a fixed size. -/
structure ImageData where
  image : List Nat
  pageSize : Nat
deriving DecidableEq, Repr

/-- `imageData.PageCount`: `len/size`, plus one if the division leaves a
remainder. -/
def ImageData.pageCount (d : ImageData) : Nat :=
  let count := d.image.length / d.pageSize
  if d.image.length % d.pageSize ≠ 0 then count + 1 else count

/-- `imageData.pageLength` (Go `int` arithmetic, hence `Int` here):
`remaining = len − pageIndex*pageSize`, capped at `pageSize` from above and
at 0 from below. -/
def ImageData.pageLength (d : ImageData) (pageIndex : Nat) : Int :=
  let remaining : Int := (d.image.length : Int) - (pageIndex * d.pageSize : Nat)
  if remaining > (d.pageSize : Int) then (d.pageSize : Int)
  else if remaining > 0 then remaining
  else 0

/-- `imageData.Page`: past the end it returns an empty payload and
`last = true`; otherwise the slice `image[offset : offset+length]` and the
comparison `pageIndex == PageCount()-1` (Go `int` comparison). -/
def ImageData.page (d : ImageData) (pageIndex : Nat) : List Nat × Bool :=
  let offset := pageIndex * d.pageSize
  if offset ≥ d.image.length then ([], true)
  else
    let length0 := (d.pageLength pageIndex).toNat
    let length1 := if offset + length0 > d.image.length
      then d.image.length - offset else length0
    ((d.image.drop offset).take length1,
      decide ((pageIndex : Int) = (d.pageCount : Int) - 1))

/-- One iteration of the button-diff loop shared by both parsers' button
branches: compare `buf[i]` with `keyState[i - offset]`, and on a difference
store the byte and emit a holdable key event. -/
def buttonStep (buf : List Nat) (offset : Nat) (acc : Device × List Key)
    (i : Nat) : Device × List Key :=
  let keyIndex := i - offset
  let v := buf.getD i 0
  if v ≠ acc.1.keyState.getD keyIndex 0 then
    ({ acc.1 with keyState := acc.1.keyState.set keyIndex v },
      acc.2 ++ [⟨keyIndex, v == 1, true⟩])
  else acc

/-- One iteration of the knob loop of `readKeysForMultipleInputTypes`
(`i` runs from 5 to `5 + knobs − 1`).  Usage 0 is a knob press (diffed
against `keyState`), usage 1 a dial turn: a non-zero delta emits one
transient event, turning left when `int(value) − 128 > 0` and right
otherwise; dial events retain no state. -/
def knobStep (buf : List Nat) (knobUsage cr knobs : Nat)
    (acc : Device × List Key) (i : Nat) : Device × List Key :=
  let keyValue := buf.getD i 0
  if knobUsage = 0 then
    let keyIndex := (i - 5 + cr) % 256
    if keyValue ≠ acc.1.keyState.getD keyIndex 0 then
      ({ acc.1 with keyState := acc.1.keyState.set keyIndex keyValue },
        acc.2 ++ [⟨keyIndex, keyValue == 1, true⟩])
    else acc
  else if knobUsage = 1 ∧ keyValue > 0 then
    let keyIndex :=
      if (keyValue : Int) - 128 > 0 then (i - 5 + cr + knobs) % 256
      else (i - 5 + cr + 2 * knobs) % 256
    (acc.1, acc.2 ++ [⟨keyIndex, true, false⟩])
  else acc

/-- The body of `readKeysForMultipleInputTypes` for a single 13-byte input
report (the Plus parser), as a pure function from the device and the raw
buffer to the updated device and the list of emitted key events.  Byte 1
selects the input type (0 buttons, 3 knob, 2 touch); the touch branch
declares `var keyIndex uint8` before its usage dispatch, so an unknown
touch usage falls through and still sends an event with index 0, while an
equal-segment swipe `continue`s without sending (modelled by `none`). -/
def readReport (d : Device) (buf : List Nat) : Device × List Key :=
  let inputType := buf.getD 1 0
  if inputType = 0 then
    (List.range' d.keyStateOffset (13 - d.keyStateOffset)).foldl
      (buttonStep buf d.keyStateOffset) (d, [])
  else if inputType = 3 then
    let knobUsage := buf.getD 4 0
    (List.range' 5 d.knobs).foldl
      (knobStep buf knobUsage (d.columns * d.rows) d.knobs) (d, [])
  else if inputType = 2 then
    let touchUsage := buf.getD 4 0
    let x := buf.getD 6 0 + 256 * buf.getD 7 0
    let segmentWidth := screenSegmentWidth d
    let segment := (x / segmentWidth) % 256
    let keyIndexOpt : Option Nat :=
      if touchUsage = 1 then
        some ((d.columns * d.rows + 3 * d.knobs + segment) % 256)
      else if touchUsage = 2 then
        some ((d.columns * d.rows + 3 * d.knobs + d.screenSegments + segment) % 256)
      else if touchUsage = 3 then
        let x2 := buf.getD 10 0 + 256 * buf.getD 11 0
        let startSegment := (x / 40) % 256
        let stopSegment := (x2 / 40) % 256
        if startSegment < stopSegment then
          some ((d.columns * d.rows + 3 * d.knobs + 2 * d.screenSegments) % 256)
        else if startSegment > stopSegment then
          some ((d.columns * d.rows + 3 * d.knobs + 2 * d.screenSegments + 1) % 256)
        else none
      else some 0
    match keyIndexOpt with
    | some keyIndex => (d, [⟨keyIndex, true, false⟩])
    | none => (d, [])
  else (d, [])

/-! ## Helper lemmas -/

/-- Reading position `xs.length` of a zero-padded buffer of size `n` returns
the byte placed right after the prefix `xs`, provided it fits. -/
theorem getD_take_append (xs : List Nat) (v : Nat) (ys : List Nat) (n : Nat)
    (h : xs.length < n) :
    ((xs ++ v :: ys).take n).getD xs.length 0 = v := by
  induction xs generalizing n with
  | nil =>
    cases n with
    | zero => omega
    | succ m => simp
  | cons a xs ih =>
    cases n with
    | zero => omega
    | succ m =>
      simp only [List.cons_append, List.take_succ_cons, List.length_cons,
        List.getD_cons_succ]
      exact ih m (by simpa using h)

/-! ## Claim theorems -/

/-- Claim C10: `ScreenSegmentWidth` and `ScreenSegmentHeight` are total: with
zero segments both return 0, and with a positive segment count the width is
`ScreenWidth / ScreenSegments` and the height is `ScreenHeight`. -/
theorem screenSegment_total (d : Device) :
    (d.screenSegments = 0 →
      screenSegmentWidth d = 0 ∧ screenSegmentHeight d = 0)
    ∧ (0 < d.screenSegments →
      screenSegmentWidth d = d.screenWidth / d.screenSegments
        ∧ screenSegmentHeight d = d.screenHeight) := by
  constructor
  · intro h
    simp [screenSegmentWidth, screenSegmentHeight, h]
  · intro h
    have hne : ¬ d.screenSegments = 0 := by omega
    unfold screenSegmentWidth screenSegmentHeight
    rw [if_neg hne, if_neg hne]
    exact ⟨rfl, rfl⟩

/-- Claim C10 witness: the theorem evaluated on the Plus profile (4 segments)
and the Mini profile (0 segments). -/
theorem screenSegment_total_w :
    screenSegmentWidth plusDevice = 200
    ∧ screenSegmentHeight plusDevice = 100
    ∧ screenSegmentWidth miniDevice = 0
    ∧ screenSegmentHeight miniDevice = 0 := by
  refine ⟨?_, ?_, ?_, ?_⟩
  · exact (((screenSegment_total plusDevice).2 (by decide)).1).trans (by decide)
  · exact (((screenSegment_total plusDevice).2 (by decide)).2).trans (by decide)
  · exact ((screenSegment_total miniDevice).1 (by decide)).1
  · exact ((screenSegment_total miniDevice).1 (by decide)).2

/-- Claim C7: the Mini image page header is
`02 01 page 00 last (key+1)` followed by ten zero bytes, carrying the
zero-based page number itself, while the Rev1 header carries `page+1` in
that position; both put byte 1 in the last-page slot exactly when the flag
is set, and the first Mini page for key 2 is `02 01 00 00 00 03` plus ten
zero bytes. -/
theorem mini_rev1_header (p k len : Nat) (last : Bool)
    (hp : p + 1 < 256) (hk : k + 1 < 256) :
    miniImagePageHeader p k len last =
      [2, 1, p, 0, (if last then 1 else 0), k + 1,
       0, 0, 0, 0, 0, 0, 0, 0, 0, 0]
    ∧ rev1ImagePageHeader p k len last =
      [2, 1, p + 1, 0, (if last then 1 else 0), k + 1,
       0, 0, 0, 0, 0, 0, 0, 0, 0, 0]
    ∧ miniImagePageHeader 0 2 len false =
      [2, 1, 0, 0, 0, 3, 0, 0, 0, 0, 0, 0, 0, 0, 0, 0] := by
  have h1 : p % 256 = p := Nat.mod_eq_of_lt (by omega)
  have h2 : (p + 1) % 256 = p + 1 := Nat.mod_eq_of_lt hp
  have h3 : (k + 1) % 256 = k + 1 := Nat.mod_eq_of_lt hk
  refine ⟨?_, ?_, ?_⟩ <;>
    simp [miniImagePageHeader, rev1ImagePageHeader, h1, h2, h3]

/-- Claim C7 witness: the header builders evaluated at page 0, key 2,
payload length 100, non-final page. -/
theorem mini_rev1_header_w :
    miniImagePageHeader 0 2 100 false =
      [2, 1, 0, 0, 0, 3, 0, 0, 0, 0, 0, 0, 0, 0, 0, 0]
    ∧ rev1ImagePageHeader 0 2 100 false =
      [2, 1, 1, 0, 0, 3, 0, 0, 0, 0, 0, 0, 0, 0, 0, 0]
    ∧ miniImagePageHeader 0 2 100 false =
      [2, 1, 0, 0, 0, 3, 0, 0, 0, 0, 0, 0, 0, 0, 0, 0] :=
  mini_rev1_header 0 2 100 false (by decide) (by decide)

/-- Claim C4 (code bug): on the Mini profile, whose key count 6 equals
`columns*rows`, `Clear()` calls `SetImage` for the indices 0 through 6
inclusive — seven calls, one past the last key — because the Go loop
condition is `i <= d.Columns*d.Rows`; the claim's index set `[0, 6)` is not
what the code iterates. -/
theorem clear_offByOne :
    clearTargets miniDevice = [0, 1, 2, 3, 4, 5, 6]
    ∧ miniDevice.keys = 6
    ∧ clearTargets miniDevice ≠ List.range miniDevice.keys := by
  decide

/-- Claim C9 (code bug): a touch report with an unrecognized usage byte is
not skipped: the `keyIndex` variable keeps its zero default and an event
`{index 0, pressed, not holdable}` is sent.  Reports with an unknown
input-type byte and knob reports with an unknown usage byte are, as the
claim says, dropped without an event. -/
theorem unknown_report_handling :
    readReport plusDevice [0, 2, 0, 0, 0, 0, 0, 0, 0, 0, 0, 0, 0]
      = (plusDevice, [⟨0, true, false⟩])
    ∧ readReport plusDevice [0, 7, 0, 0, 0, 0, 0, 0, 0, 0, 0, 0, 0]
      = (plusDevice, [])
    ∧ readReport plusDevice [0, 3, 0, 0, 5, 1, 1, 1, 1, 0, 0, 0, 0]
      = (plusDevice, []) := by
  decide

/-- Claim C2: on an awake device, `SetBrightness(p)` with `p > 100` sends a
feature report whose byte right after the `setBrightnessCommand` prefix is
exactly 100, caches brightness 100, and the cached brightness never exceeds
100 after any `SetBrightness` call. -/
theorem setBrightness_clamp (d : Device) (p : Nat)
    (hawake : d.asleep = false) (hp : 100 < p)
    (hfit : d.setBrightnessCommand.length < d.featureReportSize) :
    (setBrightness d p).1.brightness = 100
    ∧ (∃ rep, (setBrightness d p).2 = some rep
        ∧ rep.getD d.setBrightnessCommand.length 0 = 100)
    ∧ (∀ (e : Device) (q : Nat), ((setBrightness e q).1).brightness ≤ 100) := by
  have hcl : (if p > 100 then 100 else p) = 100 := if_pos hp
  refine ⟨?_, ?_, ?_⟩
  · simp [setBrightness, hcl, hawake]
  · refine ⟨sendFeatureReport { d with brightness := 100 }
      (d.setBrightnessCommand ++ [100]), ?_, ?_⟩
    · simp [setBrightness, hcl, hawake]
    · have hrw : sendFeatureReport { d with brightness := 100 }
          (d.setBrightnessCommand ++ [100])
          = ((d.setBrightnessCommand
              ++ 100 :: List.replicate d.featureReportSize 0).take
            d.featureReportSize) := by
        simp [sendFeatureReport]
      rw [hrw]
      exact getD_take_append _ _ _ _ hfit
  · intro e q
    unfold setBrightness
    dsimp only
    split_ifs <;> simp <;> omega

/-- Claim C2 witness: the original Stream Deck profile with percentage 150:
the cached brightness is 100 and byte 5 of the outgoing report is 100. -/
theorem setBrightness_clamp_w :
    (setBrightness streamdeckV1 150).1.brightness = 100
    ∧ (∃ rep, (setBrightness streamdeckV1 150).2 = some rep
        ∧ rep.getD streamdeckV1.setBrightnessCommand.length 0 = 100)
    ∧ (∀ (e : Device) (q : Nat), ((setBrightness e q).1).brightness ≤ 100) :=
  setBrightness_clamp streamdeckV1 150 rfl (by decide) (by decide)

/-- Claim C3 counterexample: on an asleep device whose cached brightness is
0 (the value `Sleep()` leaves behind), `SetBrightness 50` changes the cached
`brightness` field to 50 — so the call does not leave every field other
than `preSleepBrightness` unchanged, contrary to the claim. -/
theorem setBrightness_asleep_counterexample :
    (setBrightness { streamdeckV1 with asleep := true } 50).1.brightness = 50
    ∧ ({ streamdeckV1 with asleep := true } : Device).brightness = 0
    ∧ (setBrightness { streamdeckV1 with asleep := true } 50).2 = none := by
  decide

/-- Claim C3 as amended: on an asleep device, `SetBrightness(p)` with
`0 < p ≤ 100` performs no transport write and sets both the cached
`brightness` and the restore target `preSleepBrightness` to `p`, leaving
every other device field unchanged. -/
theorem setBrightness_asleep (d : Device) (p : Nat)
    (ha : d.asleep = true) (h0 : 0 < p) (h100 : p ≤ 100) :
    setBrightness d p
      = ({ d with brightness := p, preSleepBrightness := p }, none) := by
  have hcl : (if p > 100 then 100 else p) = p := if_neg (by omega)
  simp [setBrightness, hcl, ha, h0]

/-- Claim C3 witness: the amended theorem evaluated on an asleep original
Stream Deck at percentage 60. -/
theorem setBrightness_asleep_w :
    setBrightness { streamdeckV1 with asleep := true } 60
      = ({ streamdeckV1 with
            asleep := true
            brightness := 60
            preSleepBrightness := 60 }, none) :=
  setBrightness_asleep { streamdeckV1 with asleep := true } 60 rfl
    (by decide) (by decide)

/-- When the mirrored index fits in a byte, the `uint8` computation of
`translateRightToLeft` agrees with the plain arithmetic
`(index − index % columns) + (columns − 1) − index % columns`. -/
theorem translate_eq (i c : Nat) (hc : 0 < c)
    (hrow : i - i % c + (c - 1) < 256) :
    translateRightToLeft i c = i - i % c + (c - 1) - i % c := by
  have hr : i % c < c := Nat.mod_lt _ hc
  have hle : i % c ≤ i := Nat.mod_le i c
  simp only [translateRightToLeft]
  generalize i % c = r at hr hle hrow ⊢
  omega

/-- Claim C8 counterexample: with 200 columns and key index 250 (both legal
`uint8` values, and `250 % 200 = 50` lies in `[0, 200)`), the mirrored
index overflows a byte and the double application returns 106, not 250. -/
theorem translate_not_involution :
    (0 : Nat) < 200
    ∧ 250 % 200 < 200
    ∧ translateRightToLeft (translateRightToLeft 250 200) 200 = 106
    ∧ (106 : Nat) ≠ 250 := by
  decide

/-- Claim C8 as amended: whenever the mirrored index fits in a byte
(`index − index % columns + columns − 1 < 256`, true for every supported
device), `translateRightToLeft` is an involution and equals the row mirror
`(i − i % c) + (c − 1) − (i % c)`; the identity translation trivially
satisfies double-apply = identity. -/
theorem translate_involution (i c : Nat) (hc : 0 < c) (_hi : i < 256)
    (hrow : i - i % c + (c - 1) < 256) :
    translateRightToLeft (translateRightToLeft i c) c = i
    ∧ translateRightToLeft i c = i - i % c + (c - 1) - i % c
    ∧ (∀ j cols, identity (identity j cols) cols = j) := by
  have hr : i % c < c := Nat.mod_lt _ hc
  have hle : i % c ≤ i := Nat.mod_le i c
  have h1 := translate_eq i c hc hrow
  obtain ⟨q, hq⟩ : c ∣ (i - i % c) := by
    refine ⟨i / c, ?_⟩
    have := Nat.div_add_mod i c
    omega
  have hmod2 : translateRightToLeft i c % c = c - 1 - i % c := by
    rw [h1, (by omega : i - i % c + (c - 1) - i % c
      = c * q + (c - 1 - i % c)), Nat.mul_add_mod]
    exact Nat.mod_eq_of_lt (by omega)
  have h2 := translate_eq (translateRightToLeft i c) c hc
    (by rw [hmod2, h1]; omega)
  rw [hmod2] at h2
  refine ⟨?_, h1, fun j cols => rfl⟩
  rw [h2, h1]
  omega

/-- Claim C8 witness: the theorem evaluated at key 7 of the original Stream
Deck's 5-column grid, where the double translation returns 7. -/
theorem translate_involution_w :
    translateRightToLeft (translateRightToLeft 7 5) 5 = 7
    ∧ translateRightToLeft 7 5 = 7 - 7 % 5 + (5 - 1) - 7 % 5
    ∧ (∀ j cols, identity (identity j cols) cols = j) :=
  translate_involution 7 5 (by decide) (by decide) (by decide)

/-- Claim C5 counterexample: a dial report whose knob-0 value is 128 — the
high bit is set, so the claim predicts a left-turn event with index
`cols*rows + knobs + 0 = 12` — but the code tests `int(v) − 128 > 0`, which
is false at 128, and emits the right-turn index 16 instead. -/
theorem dial_highbit_counterexample :
    readReport plusDevice [0, 3, 0, 0, 1, 128, 0, 0, 0, 0, 0, 0, 0]
      = (plusDevice, [⟨16, true, false⟩])
    ∧ 127 < 128
    ∧ (16 : Nat) ≠ 4 * 2 + 4 + 0 := by
  decide

/-- Claim C5 as amended: in the Plus parser, a knob report with usage dial
leaves the key state untouched and emits, for each knob slot `k` holding a
non-zero value `v`, exactly one transient pressed event — with left-turn
index `cols*rows + knobs + k = 12 + k` when `v > 128` (`int(v) − 128 > 0`)
and right-turn index `cols*rows + 2*knobs + k = 16 + k` when `1 ≤ v ≤ 128`
— and nothing for zero slots. -/
theorem dial_events (st buf : List Nat)
    (h1 : buf.getD 1 0 = 3) (h4 : buf.getD 4 0 = 1) :
    readReport { plusDevice with keyState := st } buf
      = ({ plusDevice with keyState := st },
         (List.range 4).filterMap (fun k =>
           if 0 < buf.getD (5 + k) 0 then
             some ⟨if 128 < buf.getD (5 + k) 0 then 12 + k else 16 + k,
               true, false⟩
           else none)) := by
  have hiff : ∀ v : Nat, ((v : Int) - 128 > 0) ↔ 128 < v := by
    intro v; omega
  simp only [readReport, h1, h4, plusDevice]
  norm_num
  rw [(by rfl : List.range' 5 4 = [5, 6, 7, 8]),
    (by rfl : List.range 4 = [0, 1, 2, 3])]
  simp only [List.foldl_cons, List.foldl_nil, List.filterMap_cons,
    List.filterMap_nil]
  simp only [knobStep]
  norm_num [hiff]
  split_ifs <;> rfl

/-- Claim C5 witness: a dial report with knob 0 at delta 2 (right) and knob
2 at delta 130 (left) emits exactly the events with indices 16 and 14. -/
theorem dial_events_w :
    readReport { plusDevice with keyState := List.replicate 30 0 }
        [0, 3, 0, 0, 1, 2, 0, 130, 0, 0, 0, 0, 0]
      = ({ plusDevice with keyState := List.replicate 30 0 },
         [⟨16, true, false⟩, ⟨14, true, false⟩]) := by
  have h := dial_events (List.replicate 30 0)
    [0, 3, 0, 0, 1, 2, 0, 130, 0, 0, 0, 0, 0] rfl rfl
  exact h.trans (by decide)

/-- Claim C6 counterexample: a swipe report with `x = 0` and `x2 = 10240`.
Mathematically `⌊x/40⌋ = 0 < 256 = ⌊x2/40⌋`, so the claim predicts one
left-to-right event with index 28, but the code truncates both segment
numbers to `uint8` (`256 → 0`), finds them equal, and emits nothing. -/
theorem swipe_truncation_counterexample :
    readReport plusDevice [0, 2, 0, 0, 3, 0, 0, 0, 0, 0, 0, 40, 0]
      = (plusDevice, [])
    ∧ (0 : Nat) / 40 < (0 + 256 * 40) / 40 := by
  decide

/-- Claim C6 as amended: for a swipe report with little-endian coordinates
`x` (bytes 6..7) and `x2` (bytes 10..11) and segment numbers
`start = ⌊x/40⌋ mod 256` and `stop = ⌊x2/40⌋ mod 256` (the code narrows
them to `uint8`), `start < stop` emits exactly one event with index 28,
`start > stop` one with index 29, equal segments none; swipe events are
pressed and not holdable. -/
theorem swipe_events (st buf : List Nat)
    (h1 : buf.getD 1 0 = 2) (h4 : buf.getD 4 0 = 3) :
    readReport { plusDevice with keyState := st } buf
      = ({ plusDevice with keyState := st },
         if ((buf.getD 6 0 + 256 * buf.getD 7 0) / 40) % 256
              < ((buf.getD 10 0 + 256 * buf.getD 11 0) / 40) % 256 then
           [⟨28, true, false⟩]
         else if ((buf.getD 10 0 + 256 * buf.getD 11 0) / 40) % 256
              < ((buf.getD 6 0 + 256 * buf.getD 7 0) / 40) % 256 then
           [⟨29, true, false⟩]
         else []) := by
  simp only [readReport, h1, h4, plusDevice]
  norm_num [screenSegmentWidth]
  split_ifs <;> rfl

/-- Claim C6 witness: a swipe from `x = 100` (segment 2) to `x2 = 250`
(segment 6) emits exactly one left-to-right event with index 28. -/
theorem swipe_events_w :
    readReport { plusDevice with keyState := List.replicate 30 0 }
        [0, 2, 0, 0, 3, 0, 100, 0, 0, 0, 250, 0, 0]
      = ({ plusDevice with keyState := List.replicate 30 0 },
         [⟨28, true, false⟩]) := by
  have h := swipe_events (List.replicate 30 0)
    [0, 2, 0, 0, 3, 0, 100, 0, 0, 0, 250, 0, 0] rfl rfl
  exact h.trans (by decide)

/-- Page count times payload size covers the whole image. -/
theorem length_le_pageCount_mul (img : List Nat) (P : Nat) (hP : 0 < P) :
    img.length ≤ (ImageData.pageCount ⟨img, P⟩) * P := by
  have h := Nat.div_add_mod img.length P
  have h2 : img.length % P < P := Nat.mod_lt _ hP
  simp only [ImageData.pageCount]
  split_ifs with h3
  · have h4 : (img.length / P + 1) * P = P * (img.length / P) + P := by ring
    omega
  · have h4 : (img.length / P) * P = P * (img.length / P) := by ring
    omega

/-- All pages before the final one start strictly inside the image. -/
theorem pred_pageCount_mul_lt (img : List Nat) (P : Nat) (hP : 0 < P)
    (hne : img ≠ []) :
    (ImageData.pageCount ⟨img, P⟩ - 1) * P < img.length := by
  have h := Nat.div_add_mod img.length P
  have h2 : img.length % P < P := Nat.mod_lt _ hP
  have hlen : 0 < img.length := List.length_pos.mpr hne
  simp only [ImageData.pageCount]
  split_ifs with h3
  · have h4 : (img.length / P + 1 - 1) * P = P * (img.length / P) := by
      simp [Nat.mul_comm]
    omega
  · have h5 : (img.length / P - 1) * P = img.length / P * P - P := by
      rw [Nat.sub_mul, one_mul]
    have h6 : img.length / P * P = P * (img.length / P) := Nat.mul_comm _ _
    omega

/-- The payload of page `i` is exactly the slice
`image[i*P .. min((i+1)*P, length)]`, i.e. `take P` of `drop (i*P)`. -/
theorem page_fst (img : List Nat) (P : Nat) (hP : 0 < P) (i : Nat) :
    ((ImageData.page ⟨img, P⟩ i)).1 = (img.drop (i * P)).take P := by
  simp only [ImageData.page, ImageData.pageLength]
  split_ifs with h h1 h2 h3 h4 <;> try (exfalso; omega)
  · rw [List.drop_eq_nil_of_le h]
    simp
  · simp
  · have ht : ((img.length : Int) - ((i * P : Nat) : Int)).toNat
        = img.length - i * P := by omega
    rw [ht]
    dsimp only
    rw [List.take_of_length_le (by rw [List.length_drop]),
      List.take_of_length_le (by rw [List.length_drop]; omega)]

/-- Concatenating the `n` chunks of size `P` of a list of length at most
`n * P` restores the list. -/
theorem join_chunks (P : Nat) :
    ∀ (n : Nat) (l : List Nat), l.length ≤ n * P →
      ((List.range n).map (fun i => (l.drop (i * P)).take P)).flatten = l := by
  intro n
  induction n with
  | zero =>
    intro l h
    have hl : l = [] := by
      cases l with
      | nil => rfl
      | cons a t => simp at h
    subst hl
    rfl
  | succ n ih =>
    intro l h
    have h2 : l.length ≤ n * P + P := by
      rw [add_one_mul] at h
      exact h
    rw [List.range_succ_eq_map]
    simp only [List.map_cons, List.map_map, List.flatten_cons, Nat.zero_mul,
      List.drop_zero]
    have hstep : ∀ i : Nat,
        ((fun i => (l.drop (i * P)).take P) ∘ Nat.succ) i
          = ((l.drop P).drop (i * P)).take P := by
      intro i
      simp only [Function.comp_apply, List.drop_drop]
      rw [Nat.succ_mul, Nat.add_comm]
    rw [List.map_congr_left (fun i _ => hstep i)]
    rw [ih (l.drop P) (by rw [List.length_drop]; omega)]
    exact List.take_append_drop P l

/-- Claim C1 counterexample: with the empty byte-string and page size 1,
`PageCount` is 0, so the page range `0 .. PageCount−1` is empty and the
number of its pages returned with `last = true` is 0, not exactly one as
the claim asserts for every byte-string. -/
theorem pager_empty_counterexample :
    ImageData.pageCount ⟨[], 1⟩ = 0
    ∧ ((List.range (ImageData.pageCount ⟨[], 1⟩)).filter
        (fun i => (ImageData.page ⟨[], 1⟩ i).2)).length = 0
    ∧ (0 : Nat) ≠ 1 := by
  decide

/-- Claim C1 as amended: for every byte-string `B` and positive payload
page size `P`, concatenating the payloads of pages `0 .. PageCount−1`
yields `B`; when `B` is non-empty, among those pages exactly the final one
(`PageCount − 1`) is returned with `last = true` (when `B` is empty there
are no pages at all); page `i`'s payload is `B[i*P .. min((i+1)*P, |B|)]`;
and a `Page` call at or past the end returns an empty payload with
`last = true`. -/
theorem pager_roundtrip (img : List Nat) (P : Nat) (hP : 0 < P) :
    ((List.range (ImageData.pageCount ⟨img, P⟩)).map
        (fun i => (ImageData.page ⟨img, P⟩ i).1)).flatten = img
    ∧ (img ≠ [] →
        1 ≤ ImageData.pageCount ⟨img, P⟩
        ∧ ∀ i, i < ImageData.pageCount ⟨img, P⟩ →
            ((ImageData.page ⟨img, P⟩ i).2 = true
              ↔ i = ImageData.pageCount ⟨img, P⟩ - 1))
    ∧ (∀ i, (ImageData.page ⟨img, P⟩ i).1 = (img.drop (i * P)).take P)
    ∧ (∀ i, ImageData.pageCount ⟨img, P⟩ ≤ i →
        ImageData.page ⟨img, P⟩ i = ([], true)) := by
  refine ⟨?_, ?_, page_fst img P hP, ?_⟩
  · have hrw : ∀ i : Nat, (ImageData.page ⟨img, P⟩ i).1
        = (img.drop (i * P)).take P := page_fst img P hP
    simp only [hrw]
    exact join_chunks P _ img (length_le_pageCount_mul img P hP)
  · intro hne
    have hlen : 0 < img.length := List.length_pos.mpr hne
    have hpc : 1 ≤ ImageData.pageCount ⟨img, P⟩ := by
      have h := Nat.div_add_mod img.length P
      have h2 : img.length % P < P := Nat.mod_lt _ hP
      simp only [ImageData.pageCount]
      split_ifs with h3
      · exact Nat.le_add_left 1 _
      · have h0 : img.length % P = 0 := by simpa using h3
        rw [Nat.one_le_div_iff hP]
        by_contra hcon
        push_neg at hcon
        rw [Nat.mod_eq_of_lt hcon] at h0
        omega
    refine ⟨hpc, ?_⟩
    intro i hi
    have hoff : i * P < img.length := by
      have h6 : i * P ≤ (ImageData.pageCount ⟨img, P⟩ - 1) * P :=
        Nat.mul_le_mul_right P (by omega)
      exact lt_of_le_of_lt h6 (pred_pageCount_mul_lt img P hP hne)
    simp only [ImageData.page]
    rw [if_neg (by omega)]
    simp only [decide_eq_true_eq]
    omega
  · intro i hge
    have : img.length ≤ i * P := by
      have h6 : ImageData.pageCount ⟨img, P⟩ * P ≤ i * P :=
        Nat.mul_le_mul_right P hge
      have h7 := length_le_pageCount_mul img P hP
      omega
    simp only [ImageData.page]
    rw [if_pos (by omega)]

/-- Claim C1 witness: the theorem evaluated at the byte-string `[1, 2, 3]`
with payload page size 2 (two pages, the second of which is final). -/
theorem pager_roundtrip_w :
    ((List.range (ImageData.pageCount ⟨[1, 2, 3], 2⟩)).map
        (fun i => (ImageData.page ⟨[1, 2, 3], 2⟩ i).1)).flatten = [1, 2, 3]
    ∧ ([1, 2, 3] ≠ ([] : List Nat) →
        1 ≤ ImageData.pageCount ⟨[1, 2, 3], 2⟩
        ∧ ∀ i, i < ImageData.pageCount ⟨[1, 2, 3], 2⟩ →
            ((ImageData.page ⟨[1, 2, 3], 2⟩ i).2 = true
              ↔ i = ImageData.pageCount ⟨[1, 2, 3], 2⟩ - 1))
    ∧ (∀ i, (ImageData.page ⟨[1, 2, 3], 2⟩ i).1
        = (([1, 2, 3] : List Nat).drop (i * 2)).take 2)
    ∧ (∀ i, ImageData.pageCount ⟨[1, 2, 3], 2⟩ ≤ i →
        ImageData.page ⟨[1, 2, 3], 2⟩ i = ([], true)) :=
  pager_roundtrip [1, 2, 3] 2 (by decide)

end Streamdeck
